import Mathlib

/-!
Verification development for the attachment-caching layer of the autost
repository (src/attachments.rs, src/cohost.rs).

Rust strings are modelled at the byte level: `Str := List Nat`, each element
an UTF-8 code unit. Filesystem state visible to a single cache operation is
modelled explicitly (`DirState`, `FileCell`), and the network is an oracle
record (`Network`) whose uses are recorded in the operation's transcript, so
that network-I/O counts are provable facts about the model.
-/

/-- Rust strings, as their UTF-8 byte sequences. -/
abbrev Str := List Nat

/-- Raw file contents. -/
abbrev Bytes := List Nat

/-- UTF-8 encoding of one character (standard four-range encoder). -/
def charUtf8 (c : Char) : List Nat :=
  let n := c.toNat
  if n < 128 then [n]
  else if n < 2048 then [192 + n / 64, 128 + n % 64]
  else if n < 65536 then [224 + n / 4096, 128 + n / 64 % 64, 128 + n % 64]
  else [240 + n / 262144, 128 + n / 4096 % 64, 128 + n / 64 % 64, 128 + n % 64]

/-- A Lean string literal as the byte sequence of the Rust string. -/
def str (s : String) : Str :=
  (s.data.map charUtf8).flatten

/-! ## cohost.rs: attachment URL functions (lines 183-193) -/

/-- The redirect-endpoint prefix used by `attachment_id_to_url`. -/
def REDIRECT_URL_BASE : Str := str "https://cohost.org/rc/attachment-redirect/"

/-- Second recognized prefix of `attachment_url_to_id`. -/
def API_URL_BASE : Str := str "https://cohost.org/api/v1/attachments/"

/-- Third recognized prefix of `attachment_url_to_id`. -/
def CDN_URL_BASE : Str := str "https://staging.cohostcdn.org/attachment/"

/-- cohost.rs `attachment_id_to_url`: formats the redirect-endpoint URL. -/
def attachment_id_to_url (id : Str) : Str :=
  REDIRECT_URL_BASE ++ id

/-- Rust `str::strip_prefix`: the remainder when `p` is a prefix of `l`. -/
def stripPre : Str → Str → Option Str
  | [], l => some l
  | _ :: _, [] => none
  | p :: ps, c :: cs => if p = c then stripPre ps cs else none

/-- The `strip_prefix(..).or_else(..).or_else(..)` chain of
`attachment_url_to_id`: the remainder after the first recognized prefix. -/
def strippedAttachmentUrl (url : Str) : Option Str :=
  match stripPre REDIRECT_URL_BASE url with
  | some r => some r
  | none =>
    match stripPre API_URL_BASE url with
    | some r => some r
    | none => stripPre CDN_URL_BASE url

/-- cohost.rs `attachment_url_to_id`: strip a recognized prefix, require at
least 36 bytes of remainder, and keep the first 36 bytes. -/
def attachment_url_to_id (url : Str) : Option Str :=
  match strippedAttachmentUrl url with
  | none => none
  | some idPlus => if 36 ≤ idPlus.length then some (idPlus.take 36) else none

/-! ## SHA-256 (FIPS 180-4), as computed by the sha2 crate used at
attachments.rs lines 41-43.  Words are Nat with explicit reduction mod 2^32. -/

/-- Reduce to a 32-bit word. -/
def w32 (x : Nat) : Nat := x % 4294967296

/-- Rotate a 32-bit word right by `n` bits. -/
def rotr (n x : Nat) : Nat := w32 (x / 2 ^ n + x % 2 ^ n * 2 ^ (32 - n))

/-- SHA-256 choice function. -/
def shaCh (e f g : Nat) : Nat := (e &&& f) ^^^ ((e ^^^ 4294967295) &&& g)

/-- SHA-256 majority function. -/
def shaMaj (a b c : Nat) : Nat := (a &&& b) ^^^ (a &&& c) ^^^ (b &&& c)

/-- Big sigma-0. -/
def bS0 (a : Nat) : Nat := rotr 2 a ^^^ rotr 13 a ^^^ rotr 22 a

/-- Big sigma-1. -/
def bS1 (e : Nat) : Nat := rotr 6 e ^^^ rotr 11 e ^^^ rotr 25 e

/-- Small sigma-0. -/
def sS0 (x : Nat) : Nat := rotr 7 x ^^^ rotr 18 x ^^^ (x >>> 3)

/-- Small sigma-1. -/
def sS1 (x : Nat) : Nat := rotr 17 x ^^^ rotr 19 x ^^^ (x >>> 10)

/-- The 64 SHA-256 round constants. -/
def K256 : List Nat :=
  [1116352408, 1899447441, 3049323471, 3921009573, 961987163,
   1508970993, 2453635748, 2870763221, 3624381080, 310598401,
   607225278, 1426881987, 1925078388, 2162078206, 2614888103,
   3248222580, 3835390401, 4022224774, 264347078, 604807628,
   770255983, 1249150122, 1555081692, 1996064986, 2554220882,
   2821834349, 2952996808, 3210313671, 3336571891, 3584528711,
   113926993, 338241895, 666307205, 773529912, 1294757372,
   1396182291, 1695183700, 1986661051, 2177026350, 2456956037,
   2730485921, 2820302411, 3259730800, 3345764771, 3516065817,
   3600352804, 4094571909, 275423344, 430227734, 506948616,
   659060556, 883997877, 958139571, 1322822218, 1537002063,
   1747873779, 1955562222, 2024104815, 2227730452, 2361852424,
   2428436474, 2756734187, 3204031479, 3329325298]

/-- The eight 32-bit words of a SHA-256 state. -/
structure Hash8 where
  h0 : Nat
  h1 : Nat
  h2 : Nat
  h3 : Nat
  h4 : Nat
  h5 : Nat
  h6 : Nat
  h7 : Nat
deriving DecidableEq

/-- The eight working registers of the compression loop. -/
structure Regs where
  a : Nat
  b : Nat
  c : Nat
  d : Nat
  e : Nat
  f : Nat
  g : Nat
  h : Nat
deriving DecidableEq

/-- The SHA-256 initial hash value. -/
def initHash : Hash8 :=
  ⟨1779033703, 3144134277, 1013904242, 2773480762,
   1359893119, 2600822924, 528734635, 1541459225⟩

/-- Big-endian 4-byte groups to 32-bit words. -/
def toWords : List Nat → List Nat
  | b0 :: b1 :: b2 :: b3 :: rest =>
    (b0 * 16777216 + b1 * 65536 + b2 * 256 + b3) :: toWords rest
  | _ => []

/-- Extend a 16-word block schedule by `fuel` further words. -/
def extendSchedule (ws : List Nat) : Nat → List Nat
  | 0 => ws
  | fuel + 1 =>
    let n := ws.length
    let w := w32 (sS1 (ws.getD (n - 2) 0) + ws.getD (n - 7) 0 +
                  sS0 (ws.getD (n - 15) 0) + ws.getD (n - 16) 0)
    extendSchedule (ws ++ [w]) fuel

/-- One SHA-256 round. -/
def roundStep (r : Regs) (kw : Nat × Nat) : Regs :=
  let t1 := w32 (r.h + bS1 r.e + shaCh r.e r.f r.g + kw.1 + kw.2)
  let t2 := w32 (bS0 r.a + shaMaj r.a r.b r.c)
  ⟨w32 (t1 + t2), r.a, r.b, r.c, w32 (r.d + t1), r.e, r.f, r.g⟩

/-- Compress one 64-byte block into the running hash. -/
def compressBlock (h : Hash8) (block : List Nat) : Hash8 :=
  let ws := extendSchedule (toWords block) 48
  let r0 : Regs := ⟨h.h0, h.h1, h.h2, h.h3, h.h4, h.h5, h.h6, h.h7⟩
  let rf := (K256.zip ws).foldl roundStep r0
  ⟨w32 (h.h0 + rf.a), w32 (h.h1 + rf.b), w32 (h.h2 + rf.c), w32 (h.h3 + rf.d),
   w32 (h.h4 + rf.e), w32 (h.h5 + rf.f), w32 (h.h6 + rf.g), w32 (h.h7 + rf.h)⟩

/-- Big-endian 8-byte rendering of the message bit length. -/
def lenBytes (bits : Nat) : List Nat :=
  [bits / 2 ^ 56 % 256, bits / 2 ^ 48 % 256, bits / 2 ^ 40 % 256,
   bits / 2 ^ 32 % 256, bits / 2 ^ 24 % 256, bits / 2 ^ 16 % 256,
   bits / 2 ^ 8 % 256, bits % 256]

/-- SHA-256 padding: 0x80, zeros to 56 mod 64, then the 64-bit bit length. -/
def padMessage (msg : List Nat) : List Nat :=
  let L := msg.length
  let zeros := (119 - L % 64) % 64
  msg ++ 128 :: List.replicate zeros 0 ++ lenBytes (8 * L)

/-- Split into 64-byte blocks (fuel-driven; fuel bounds the recursion). -/
def chunk64 : Nat → List Nat → List (List Nat)
  | 0, _ => []
  | _, [] => []
  | fuel + 1, l => l.take 64 :: chunk64 fuel (l.drop 64)

/-- SHA-256 of a byte sequence: padded blocks folded through compression. -/
def sha256 (msg : List Nat) : Hash8 :=
  (chunk64 (padMessage msg).length (padMessage msg)).foldl compressBlock initHash

/-- Big-endian bytes of one 32-bit word. -/
def wordBytes (w : Nat) : List Nat :=
  [w / 16777216 % 256, w / 65536 % 256, w / 256 % 256, w % 256]

/-- The 32 digest bytes of a final SHA-256 state. -/
def digestBytes (h : Hash8) : List Nat :=
  wordBytes h.h0 ++ wordBytes h.h1 ++ wordBytes h.h2 ++ wordBytes h.h3 ++
  wordBytes h.h4 ++ wordBytes h.h5 ++ wordBytes h.h6 ++ wordBytes h.h7

/-- One lowercase hexadecimal digit, as a byte. -/
def hexDigit (n : Nat) : Nat := if n < 10 then 48 + n else 87 + n

/-- Lowercase hex rendering of a byte list, two digits per byte; this is
`format!` with the 02x spec, mapped over the digest and joined. -/
def bytesToHex : List Nat → Str
  | [] => []
  | b :: rest => hexDigit (b / 16) :: hexDigit (b % 16) :: bytesToHex rest

/-- The 64-character lowercase hex SHA-256 digest of a byte sequence. -/
def sha256hex (msg : List Nat) : Str :=
  bytesToHex (digestBytes (sha256 msg))

/-! ## Filesystem state of a single cache directory

attachments.rs probes a cache directory by listing it (`read_dir`), taking the
first entry, and opening it (lines 120-135 and 171-186, textually identical
logic).  A directory is modelled as absent (so `read_dir` errors) or as an
ordered entry list; the model's listing order is the list order, standing for
the implementation-defined directory order the spec acknowledges.  An entry
carries an `openable` flag: `File::open` succeeds exactly when it is set. -/

/-- One directory entry: a name, whether `File::open` on it succeeds, and the
bytes read from it when it does. -/
structure DirEntry where
  name : Str
  openable : Bool
  content : Bytes
deriving DecidableEq

/-- The state of one cache directory. -/
inductive DirState
  | absent
  | present (entries : List DirEntry)
deriving DecidableEq

/-- The probe shared by `cache_imported_attachment` (lines 121-135) and
`cache_cohost_attachment` (lines 172-186): list the directory, take the first
entry, open it; any failure is a miss (`none`). -/
def probe : DirState → Option (Str × Bytes)
  | DirState.absent => none
  | DirState.present [] => none
  | DirState.present (e :: _) =>
    if e.openable then some (e.name, e.content) else none

/-- Rust `File::create` then `write_all`: replace the like-named entry in place, or
append a new entry at the end of the listing. -/
def replaceOrAppend : List DirEntry → Str → Bytes → List DirEntry
  | [], n, b => [⟨n, true, b⟩]
  | e :: es, n, b =>
    if e.name = n then ⟨n, true, b⟩ :: es else e :: replaceOrAppend es n b

/-- Write a file into a cache directory (no effect on an absent directory,
which `create_dir_all` has always ruled out at the call sites). -/
def writeFile : DirState → Str → Bytes → DirState
  | DirState.absent, _, _ => DirState.absent
  | DirState.present es, n, b => DirState.present (replaceOrAppend es n b)

/-- Rust `create_dir_all`: makes the directory exist, preserving existing state. -/
def ensureDir : DirState → DirState
  | DirState.absent => DirState.present []
  | d => d

/-- A well-formed cache directory: every entry it already holds is openable.
This is the `CacheEntry` invariant of directories the subsystem itself
populated (created empty, written once with a readable file). -/
def wfDir : DirState → Prop
  | DirState.absent => True
  | DirState.present es => ∀ e ∈ es, e.openable = true

/-! ## The network oracle -/

/-- The network, as an oracle: `headLoc url n` is the `Location` header (if
any) of the `n`-th HEAD request sent to `url` with redirects disabled;
`get u` the body bytes of a GET of `u`; `contentType u` the `Content-Type`
header of that GET response. -/
structure Network where
  headLoc : Str → Nat → Option Str
  get : Str → Bytes
  contentType : Str → Option Str

/-- The failure kinds of the cache operations (attachments.rs bail sites and
propagated I/O errors). -/
inductive CacheError
  | redirectExpected
  | malformedRedirectTarget
  | emptyCacheDirectory
  | ioError
deriving DecidableEq

deriving instance DecidableEq for Except

/-- Outcome of one low-level cache operation: the result (filename inside the
cache directory, and its bytes), the directory's new state, the number of HEAD
requests sent, and the URLs fetched with GET, in order. -/
structure OpResult where
  result : Except CacheError (Str × Bytes)
  dir : DirState
  heads : Nat
  getUrls : List Str
deriving DecidableEq

/-! ## cache_imported_attachment (attachments.rs lines 119-159) -/

/-- The `Content-Type` match of lines 141-151: the derived extension, paired
with whether the wildcard arm (which warns) was taken. -/
def contentTypeExt (ct : Option Str) : Str × Bool :=
  match ct with
  | some x =>
    if x = str "image/gif" then (str "gif", false)
    else if x = str "image/jpeg" then (str "jpg", false)
    else if x = str "image/png" then (str "png", false)
    else if x = str "image/svg+xml" then (str "svg", false)
    else if x = str "image/webp" then (str "webp", false)
    else (str "bin", true)
  | none => (str "bin", true)

/-- Function `cache_imported_attachment`: probe the directory; on a miss GET `url`,
derive the extension from the response `Content-Type`, and store the body as
`file.{extension}`. -/
def cacheImportedAttachment (net : Network) (url : Str) (d : DirState) :
    OpResult :=
  match probe d with
  | some hit => ⟨Except.ok hit, d, 0, []⟩
  | none =>
    let ext := (contentTypeExt (net.contentType url)).1
    let fname := str "file." ++ ext
    let content := net.get url
    ⟨Except.ok (fname, content), writeFile d fname content, 0, [url]⟩

/-! ## cache_cohost_attachment (attachments.rs lines 166-233) -/

/-- The HEAD retry loop of lines 196-209: send a HEAD; break with the
`location` header if present; otherwise retry while `retries` remain, else
fail with the redirect-expected error.  Returns the resolved target and the
number of HEAD requests sent. -/
def resolveRedirectLoop (net : Network) (url : Str) :
    Nat → Nat → Except CacheError Str × Nat
  | attempt, 0 =>
    match net.headLoc url attempt with
    | some target => (Except.ok target, attempt + 1)
    | none => (Except.error CacheError.redirectExpected, attempt + 1)
  | attempt, r + 1 =>
    match net.headLoc url attempt with
    | some target => (Except.ok target, attempt + 1)
    | none => resolveRedirectLoop net url (attempt + 1) r

/-- Rust `rsplit_once` at a slash: split at the last slash (byte 47),
returning the parts before and after it; `none` when no slash occurs. -/
def rsplitOnceSlash : Str → Option (Str × Str)
  | [] => none
  | c :: rest =>
    match rsplitOnceSlash rest with
    | some (pre, post) => some (c :: pre, post)
    | none => if c = 47 then some ([], rest) else none

/-- The numeric value of one hex digit byte, if it is one. -/
def hexVal (c : Nat) : Option Nat :=
  if 48 ≤ c ∧ c ≤ 57 then some (c - 48)
  else if 97 ≤ c ∧ c ≤ 102 then some (c - 87)
  else if 65 ≤ c ∧ c ≤ 70 then some (c - 55)
  else none

/-- Rust `urlencoding::decode`, at the byte level: each percent sign followed by
two hex digits becomes the denoted byte; anything else passes through. -/
def percentDecode : Str → Str
  | [] => []
  | 37 :: h :: l :: rest =>
    match hexVal h, hexVal l with
    | some a, some b => (16 * a + b) :: percentDecode rest
    | _, _ => 37 :: percentDecode (h :: l :: rest)
  | c :: rest => c :: percentDecode rest

/-- Function `cache_cohost_attachment`: probe; on a miss resolve the redirect with the
bounded retry loop, derive the original filename from the target's final path
segment (percent-decoded), apply the optional transform to the resolved
target to obtain the URL actually fetched, GET it, and store the body under
the decoded original filename. -/
def cacheCohostAttachment (net : Network) (url : Str)
    (transformRedirectTarget : Option (Str → Str)) (d : DirState) : OpResult :=
  match probe d with
  | some hit => ⟨Except.ok hit, d, 0, []⟩
  | none =>
    match resolveRedirectLoop net url 0 2 with
    | (Except.error e, hds) => ⟨Except.error e, d, hds, []⟩
    | (Except.ok target, hds) =>
      match rsplitOnceSlash target with
      | none => ⟨Except.error CacheError.malformedRedirectTarget, d, hds, []⟩
      | some (_, encName) =>
        let fname := percentDecode encName
        let getUrl :=
          match transformRedirectTarget with
          | some t => t target
          | none => target
        let content := net.get getUrl
        ⟨Except.ok (fname, content), writeFile d fname content, hds, [getUrl]⟩

/-- Function `cached_attachment_url` (lines 109-117): re-list the attachment's cache
directory and return its first entry's name; an empty directory is the
empty-cache-directory invariant violation, an unlistable one an I/O error. -/
def cachedAttachmentUrl : DirState → Except CacheError Str
  | DirState.absent => Except.error CacheError.ioError
  | DirState.present [] => Except.error CacheError.emptyCacheDirectory
  | DirState.present (e :: _) => Except.ok e.name

/-! ## Entry points (attachments.rs lines 39-106) -/

/-- Outcome of an attachment-id entry point: the returned entry name inside
the id's cache directory, the directory's new state, and the transcript. -/
structure ResOpResult where
  result : Except CacheError Str
  dir : DirState
  heads : Nat
  getUrls : List Str
deriving DecidableEq

/-- The imported-URL cache directory name (lines 41-44):
`imported-{post_basename}-{sha256-hex(url)}`. -/
def importedDirName (url postBasename : Str) : Str :=
  str "imported-" ++ postBasename ++ str "-" ++ sha256hex url

/-- Function `cache_imported`: compute the hash-keyed directory name, `create_dir_all`
it, and run `cache_imported_attachment` in it.  Returns the directory name
together with the operation's outcome. -/
def cacheImported (net : Network) (url postBasename : Str) (d : DirState) :
    Str × OpResult :=
  (importedDirName url postBasename,
   cacheImportedAttachment net url (ensureDir d))

/-- The shape shared by the attachment arm of `cache_cohost_resource` (lines
54-62) and by `cache_cohost_thumb` (lines 94-106): `create_dir_all` the id's
directory, run `cache_cohost_attachment` with the given transform against the
id's redirect-endpoint URL, then return `cached_attachment_url`'s answer from
the directory's final state. -/
def cohostIdCache (net : Network) (t : Option (Str → Str)) (id : Str)
    (d : DirState) : ResOpResult :=
  let r := cacheCohostAttachment net (attachment_id_to_url id) t (ensureDir d)
  match r.result with
  | Except.error e => ⟨Except.error e, r.dir, r.heads, r.getUrls⟩
  | Except.ok _ => ⟨cachedAttachmentUrl r.dir, r.dir, r.heads, r.getUrls⟩

/-- The `Cacheable::Attachment` arm of `cache_cohost_resource`: no transform
is supplied. -/
def cacheCohostResourceAttachment (net : Network) (id : Str) (d : DirState) :
    ResOpResult :=
  cohostIdCache net none id d

/-- The thumbnail transform of lines 95-97: append the width query. -/
def thumb (url : Str) : Str := url ++ str "?width=675"

/-- Function `cache_cohost_thumb`: like the attachment arm but in the thumbnails root
and with the `thumb` transform supplied. -/
def cacheCohostThumb (net : Network) (id : Str) (d : DirState) : ResOpResult :=
  cohostIdCache net (some thumb) id d

/-- The state of the single flat file used by `cache_other_cohost_resource`:
absent, or present with an openability flag and contents. -/
inductive FileCell
  | absent
  | present (openable : Bool) (content : Bytes)
deriving DecidableEq

/-- Function `cache_other_cohost_resource` (lines 235-253), for the static, avatar and
header variants: `File::open` the destination path — a readable file is a hit
returning the path unchanged; otherwise GET `url` and write the body there. -/
def cacheOtherCohostResource (net : Network) (url : Str) (c : FileCell) :
    FileCell × List Str :=
  match c with
  | FileCell.present true content => (FileCell.present true content, [])
  | _ => (FileCell.present true (net.get url), [url])

/-! ## Path layout (namespace roots and per-id directories)

Modelled from the spec: the `AttachmentsPath` constants `ROOT` and `THUMBS`
live in the repository's path module, which is not under src/; spec section 6
fixes the layout as `{root}/{attachment-id}/` for full-size attachments and
`{root}/thumbs/{attachment-id}/` for thumbnails.  A path is its segment list
relative to the storage root. -/
abbrev DirPath := List Str

/-- The full-size cache directory of an attachment id: `{root}/{id}`
(attachments.rs lines 56-57, `ROOT.join(id)`). -/
def attachmentDirPath (id : Str) : DirPath := [id]

/-- The thumbnail cache directory of an attachment id: `{root}/thumbs/{id}`
(attachments.rs lines 100-101, `THUMBS.join(id)`). -/
def thumbDirPath (id : Str) : DirPath := [str "thumbs", id]

/-- A whole storage tree, one `DirState` per directory path. -/
abbrev AttachFS := DirPath → DirState

/-- The attachment arm of `cache_cohost_resource` over the whole tree: it
reads and writes only the entry at `attachmentDirPath id`. -/
def cacheCohostResourceAttachmentFS (net : Network) (id : Str)
    (fs : AttachFS) : ResOpResult × AttachFS :=
  let r := cacheCohostResourceAttachment net id (fs (attachmentDirPath id))
  (r, fun p => if p = attachmentDirPath id then r.dir else fs p)

/-- Function `cache_cohost_thumb` over the whole tree: it reads and writes only the
entry at `thumbDirPath id`. -/
def cacheCohostThumbFS (net : Network) (id : Str) (fs : AttachFS) :
    ResOpResult × AttachFS :=
  let r := cacheCohostThumb net id (fs (thumbDirPath id))
  (r, fun p => if p = thumbDirPath id then r.dir else fs p)

/-! ## store (attachments.rs lines 27-37) -/

/-- A Rust `OsStr` path component: either valid UTF-8 (so `to_str` succeeds)
or not representable as a native string. -/
inductive OsStr
  | valid (s : Str)
  | invalid (bytes : Bytes)
deriving DecidableEq

/-- Rust `OsStr::to_str`. -/
def osToStr : OsStr → Option Str
  | OsStr.valid s => some s
  | OsStr.invalid _ => none

/-- Rust `Path::file_name` over normalized components: the last component,
unless there is none or it is `..`. -/
def fileNameOf (components : List OsStr) : Option OsStr :=
  match components.getLast? with
  | none => none
  | some c => if c = OsStr.valid (str "..") then none else some c

/-- Filesystem state for `store`: which directories exist and which files,
with contents. -/
structure StoreFS where
  dirs : List DirPath
  files : List (DirPath × Bytes)
deriving DecidableEq

/-- Rust `create_dir_all` in the store model. -/
def addDir (fs : StoreFS) (p : DirPath) : StoreFS := ⟨p :: fs.dirs, fs.files⟩

/-- The write performed by Rust `copy`: record the file's bytes at its path. -/
def putFile (fs : StoreFS) (p : DirPath) (b : Bytes) : StoreFS :=
  ⟨fs.dirs, (p, b) :: fs.files⟩

/-- The failure kinds of `store`. -/
inductive StoreError
  | noFilename
  | unsupportedFilename
deriving DecidableEq

/-- Function `store` (lines 28-37): generate a fresh directory `{root}/{uuid}`,
`create_dir_all` it, then require the input path's base name and its UTF-8
representability, and copy the input's bytes under that base name.  The model
takes the generated uuid, the input path's components, and the input file's
bytes; it performs no network access at all, so no `Network` appears. -/
def store (uuid : Str) (inputComponents : List OsStr) (inputBytes : Bytes)
    (fs : StoreFS) : Except StoreError DirPath × StoreFS :=
  let dir : DirPath := [uuid]
  let fs1 := addDir fs dir
  match fileNameOf inputComponents with
  | none => (Except.error StoreError.noFilename, fs1)
  | some f =>
    match osToStr f with
    | none => (Except.error StoreError.unsupportedFilename, fs1)
    | some filename =>
      let p : DirPath := [uuid, filename]
      (Except.ok p, putFile fs1 p inputBytes)

/-! ## Concrete demonstration inputs used by the witnesses -/

/-- A network whose redirect endpoint answers every HEAD at once and whose
GETs return a fixed body. -/
def demoNet : Network :=
  ⟨fun _ _ => some (str "https://cdn.example/att/My%20File.png"),
   fun _ => [10, 20, 30],
   fun _ => some (str "image/png")⟩

/-- A network whose redirect endpoint answers only the second HEAD. -/
def demoNetSecond : Network :=
  ⟨fun _ n => if n = 0 then none else some (str "https://cdn.example/a/b.png"),
   fun _ => [7],
   fun _ => none⟩

/-- A network that never supplies a `Location` header. -/
def demoNetNoLoc : Network :=
  ⟨fun _ _ => none, fun _ => [], fun _ => none⟩

/-- A network whose redirect target contains no slash at all. -/
def demoNetNoSlash : Network :=
  ⟨fun _ _ => some (str "no-slash-here"), fun _ => [9], fun _ => none⟩

/-- A 36-byte ASCII attachment id (the one in the repository's own test). -/
def demoId : Str := str "44444444-4444-4444-4444-444444444444"

/-- The empty storage tree. -/
def emptyFS : AttachFS := fun _ => DirState.absent

/-- A byte that is a lowercase hexadecimal digit. -/
def isLowerHexByte (c : Nat) : Prop :=
  (48 ≤ c ∧ c ≤ 57) ∨ (97 ≤ c ∧ c ≤ 102)

/-- The five `Content-Type` values the imported-URL fetch recognizes. -/
def knownContentTypes : List Str :=
  [str "image/gif", str "image/jpeg", str "image/png",
   str "image/svg+xml", str "image/webp"]

/-! # Theorems -/

/-! ## Shared helper lemmas -/

/-- Rust `strip_prefix` strips an actual prefix, leaving the remainder. -/
theorem stripPre_append : ∀ p l : Str, stripPre p (p ++ l) = some l
  | [], _ => rfl
  | c :: ps, l => by simp [stripPre, stripPre_append ps l]

/-- Hex rendering doubles the length. -/
theorem bytesToHex_length : ∀ l : List Nat, (bytesToHex l).length = 2 * l.length
  | [] => rfl
  | b :: rest => by
    simp only [bytesToHex, List.length_cons, bytesToHex_length rest]
    omega

/-- A SHA-256 digest has 32 bytes. -/
theorem digestBytes_length (h8 : Hash8) : (digestBytes h8).length = 32 := by
  simp [digestBytes, wordBytes]

/-- Every word byte is below 256. -/
theorem wordBytes_lt (w : Nat) : ∀ b ∈ wordBytes w, b < 256 := by
  intro b hb
  simp only [wordBytes, List.mem_cons, List.not_mem_nil, or_false] at hb
  rcases hb with h | h | h | h <;> subst h <;> exact Nat.mod_lt _ (by omega)

/-- Every digest byte is below 256. -/
theorem digestBytes_lt (h8 : Hash8) : ∀ b ∈ digestBytes h8, b < 256 := by
  intro b hb
  simp only [digestBytes, List.mem_append] at hb
  rcases hb with ((((((h | h) | h) | h) | h) | h) | h) | h <;>
    exact wordBytes_lt _ _ h

/-- Applying `hexDigit` to a value below 16 is a lowercase hex digit byte. -/
theorem hexDigit_lower {n : Nat} (h : n < 16) : isLowerHexByte (hexDigit n) := by
  unfold isLowerHexByte hexDigit
  split <;> omega

/-- Hex rendering of bytes yields only lowercase hex digit bytes. -/
theorem bytesToHex_lower : ∀ l : List Nat, (∀ b ∈ l, b < 256) →
    ∀ c ∈ bytesToHex l, isLowerHexByte c
  | [], _ => by intro c hc; simp [bytesToHex] at hc
  | b :: rest, h => by
    intro c hc
    have hb : b < 256 := h b (by simp)
    simp only [bytesToHex, List.mem_cons] at hc
    rcases hc with rfl | rfl | hc
    · exact hexDigit_lower ((Nat.div_lt_iff_lt_mul (by omega)).mpr (by omega))
    · exact hexDigit_lower (Nat.mod_lt _ (by omega))
    · exact bytesToHex_lower rest
        (fun x hx => h x (List.mem_cons_of_mem _ hx)) c hc

/-! ## C10 -/

/-- C10: for every 36-byte ASCII attachment id, `attachment_url_to_id`
inverts `attachment_id_to_url`; and whenever the remainder of a URL after a
recognized prefix is shorter than 36 bytes, `attachment_url_to_id` is none. -/
theorem c10_url_id_round_trip :
    (∀ id : Str, id.length = 36 → (∀ b ∈ id, b < 128) →
      attachment_url_to_id (attachment_id_to_url id) = some id) ∧
    (∀ url rest : Str, strippedAttachmentUrl url = some rest →
      rest.length < 36 → attachment_url_to_id url = none) := by
  constructor
  · intro id h36 _
    have h1 : stripPre REDIRECT_URL_BASE (REDIRECT_URL_BASE ++ id) = some id :=
      stripPre_append _ _
    unfold attachment_url_to_id strippedAttachmentUrl attachment_id_to_url
    rw [h1]
    simp only [h36, le_refl, if_true]
    rw [← h36, List.take_length]
  · intro url rest hs hlt
    unfold attachment_url_to_id
    rw [hs]
    simp only [if_neg (by omega : ¬ 36 ≤ rest.length)]

/-- C10 witness: the round trip at the repository test's own id, and a
too-short remainder after the API prefix mapping to none. -/
theorem c10_witness :
    attachment_url_to_id (attachment_id_to_url demoId) = some demoId ∧
    attachment_url_to_id (API_URL_BASE ++ str "short") = none :=
  ⟨c10_url_id_round_trip.1 demoId (by decide) (by decide),
   c10_url_id_round_trip.2 (API_URL_BASE ++ str "short") (str "short")
     (by decide) (by decide)⟩

/-! ## C6 -/

/-- C6: `cache_imported` keys its cache directory deterministically as
`imported-{name}-{hash}` where the hash part is the SHA-256 of the url,
rendered as exactly 64 lowercase hexadecimal characters. -/
theorem c6_imported_cache_key (net : Network) (url postBasename : Str)
    (d : DirState) :
    (cacheImported net url postBasename d).1 =
      str "imported-" ++ postBasename ++ str "-" ++ sha256hex url ∧
    (sha256hex url).length = 64 ∧
    ∀ c ∈ sha256hex url, isLowerHexByte c := by
  refine ⟨rfl, ?_, ?_⟩
  · unfold sha256hex
    rw [bytesToHex_length, digestBytes_length]
  · exact bytesToHex_lower _ (digestBytes_lt _)

set_option maxRecDepth 10000 in
/-- C6 witness: the spec's own example inputs. -/
theorem c6_witness :
    (cacheImported demoNet (str "https://x/y.png") (str "post-1")
        DirState.absent).1 =
      str "imported-" ++ str "post-1" ++ str "-" ++
        sha256hex (str "https://x/y.png") ∧
    (sha256hex (str "https://x/y.png")).length = 64 ∧
    isLowerHexByte ((sha256hex (str "https://x/y.png")).getD 0 0) :=
  ⟨(c6_imported_cache_key demoNet (str "https://x/y.png") (str "post-1")
      DirState.absent).1,
   (c6_imported_cache_key demoNet (str "https://x/y.png") (str "post-1")
      DirState.absent).2.1,
   (c6_imported_cache_key demoNet (str "https://x/y.png") (str "post-1")
      DirState.absent).2.2 _ (by decide)⟩

/-! ## C3 -/

/-- C3: the imported-URL fetch stores `file.{ext}` with the extension derived
from `Content-Type` by the five-entry mapping; every other or missing value
yields `bin` together with the warning, and the fetch never fails for it. -/
theorem c3_extension_inference :
    contentTypeExt (some (str "image/gif")) = (str "gif", false) ∧
    contentTypeExt (some (str "image/jpeg")) = (str "jpg", false) ∧
    contentTypeExt (some (str "image/png")) = (str "png", false) ∧
    contentTypeExt (some (str "image/svg+xml")) = (str "svg", false) ∧
    contentTypeExt (some (str "image/webp")) = (str "webp", false) ∧
    contentTypeExt none = (str "bin", true) ∧
    (∀ x : Str, x ∉ knownContentTypes →
      contentTypeExt (some x) = (str "bin", true)) ∧
    (∀ net url d, probe d = none →
      (cacheImportedAttachment net url d).result =
        Except.ok (str "file." ++ (contentTypeExt (net.contentType url)).1,
          net.get url)) ∧
    (∀ net url d, ∃ v,
      (cacheImportedAttachment net url d).result = Except.ok v) := by
  refine ⟨by decide, by decide, by decide, by decide, by decide, by decide,
    ?_, ?_, ?_⟩
  · intro x hx
    simp only [knownContentTypes, List.mem_cons, List.not_mem_nil, or_false,
      not_or] at hx
    obtain ⟨h1, h2, h3, h4, h5⟩ := hx
    simp only [contentTypeExt, h1, h2, h3, h4, h5, if_false]
  · intro net url d h
    unfold cacheImportedAttachment
    rw [h]
  · intro net url d
    unfold cacheImportedAttachment
    cases h : probe d with
    | none => exact ⟨_, rfl⟩
    | some hit => exact ⟨hit, rfl⟩

/-- C3 witness: an unrecognized type maps to bin with the warning; a probe
miss stores under the derived name and succeeds. -/
theorem c3_witness :
    contentTypeExt (some (str "text/html")) = (str "bin", true) ∧
    (cacheImportedAttachment demoNet (str "u") (DirState.present [])).result =
      Except.ok (str "file." ++
        (contentTypeExt (demoNet.contentType (str "u"))).1,
        demoNet.get (str "u")) :=
  ⟨c3_extension_inference.2.2.2.2.2.2.1 (str "text/html") (by decide),
   c3_extension_inference.2.2.2.2.2.2.2.1 demoNet (str "u")
     (DirState.present []) (by decide)⟩

/-! ## C2 -/

/-- Unfolding: a HEAD whose response carries a `Location` header ends the
loop at once. -/
theorem rrl_some (net : Network) (url : Str) (attempt retries : Nat)
    (target : Str) (h : net.headLoc url attempt = some target) :
    resolveRedirectLoop net url attempt retries =
      (Except.ok target, attempt + 1) := by
  cases retries <;> simp [resolveRedirectLoop, h]

/-- Unfolding: a header-less response with no retries left fails. -/
theorem rrl_none_zero (net : Network) (url : Str) (attempt : Nat)
    (h : net.headLoc url attempt = none) :
    resolveRedirectLoop net url attempt 0 =
      (Except.error CacheError.redirectExpected, attempt + 1) := by
  simp [resolveRedirectLoop, h]

/-- Unfolding: a header-less response with retries left loops. -/
theorem rrl_none_succ (net : Network) (url : Str) (attempt r : Nat)
    (h : net.headLoc url attempt = none) :
    resolveRedirectLoop net url attempt (r + 1) =
      resolveRedirectLoop net url (attempt + 1) r := by
  simp [resolveRedirectLoop, h]

/-- The retry loop sends at most `retries + 1` further HEAD requests. -/
theorem resolveRedirectLoop_heads (net : Network) (url : Str) :
    ∀ retries attempt,
      (resolveRedirectLoop net url attempt retries).2 ≤ attempt + retries + 1
  | 0, attempt => by
    cases h : net.headLoc url attempt with
    | some t => rw [rrl_some net url attempt 0 t h]
    | none => rw [rrl_none_zero net url attempt h]
  | r + 1, attempt => by
    cases h : net.headLoc url attempt with
    | some t =>
      rw [rrl_some net url attempt (r + 1) t h]
      show attempt + 1 <= attempt + (r + 1) + 1
      omega
    | none =>
      rw [rrl_none_succ net url attempt r h]
      have := resolveRedirectLoop_heads net url r (attempt + 1)
      omega

/-- C2: on a miss, a HEAD response without a `Location` header is retried up
to 2 additional times — never more than 3 HEADs in total; three consecutive
header-less responses fail the operation with `redirectExpected`, while a
header on the 2nd or 3rd response resolves the target and the operation
proceeds with it. -/
theorem c2_redirect_retry_bound :
    (∀ net url t d, (cacheCohostAttachment net url t d).heads ≤ 3) ∧
    (∀ net url t (d : DirState), probe d = none →
      net.headLoc url 0 = none → net.headLoc url 1 = none →
      net.headLoc url 2 = none →
      cacheCohostAttachment net url t d =
        ⟨Except.error CacheError.redirectExpected, d, 3, []⟩) ∧
    (∀ net url t (d : DirState) target pre enc, probe d = none →
      net.headLoc url 0 = none → net.headLoc url 1 = some target →
      rsplitOnceSlash target = some (pre, enc) →
      (cacheCohostAttachment net url t d).heads = 2 ∧
      (cacheCohostAttachment net url t d).result =
        Except.ok (percentDecode enc,
          net.get (match t with | some f => f target | none => target))) ∧
    (∀ net url t (d : DirState) target pre enc, probe d = none →
      net.headLoc url 0 = none → net.headLoc url 1 = none →
      net.headLoc url 2 = some target →
      rsplitOnceSlash target = some (pre, enc) →
      (cacheCohostAttachment net url t d).heads = 3 ∧
      (cacheCohostAttachment net url t d).result =
        Except.ok (percentDecode enc,
          net.get (match t with | some f => f target | none => target))) := by
  refine ⟨?_, ?_, ?_, ?_⟩
  · intro net url t d
    unfold cacheCohostAttachment
    cases hp : probe d with
    | some hit => simp
    | none =>
      have hb : (resolveRedirectLoop net url 0 2).2 ≤ 3 :=
        resolveRedirectLoop_heads net url 2 0
      rcases hr : resolveRedirectLoop net url 0 2 with ⟨res, hds⟩
      rw [hr] at hb
      cases res with
      | error e => simpa using hb
      | ok target =>
        cases ht : rsplitOnceSlash target with
        | none => simpa [ht] using hb
        | some p =>
          rcases p with ⟨pre, enc⟩
          simpa [ht] using hb
  · intro net url t d hp h0 h1 h2
    unfold cacheCohostAttachment
    rw [hp, rrl_none_succ net url 0 1 h0, rrl_none_succ net url 1 0 h1,
      rrl_none_zero net url 2 h2]
  · intro net url t d target pre enc hp h0 h1 ht
    unfold cacheCohostAttachment
    rw [hp, rrl_none_succ net url 0 1 h0, rrl_some net url 1 1 target h1]
    simp [ht]
  · intro net url t d target pre enc hp h0 h1 h2 ht
    unfold cacheCohostAttachment
    rw [hp, rrl_none_succ net url 0 1 h0, rrl_none_succ net url 1 0 h1,
      rrl_some net url 2 0 target h2]
    simp [ht]

/-- C2 witness: a network with no `Location` header at all fails with
`redirectExpected` after 3 HEADs; one answering only the second HEAD
succeeds with 2 HEADs. -/
theorem c2_witness :
    cacheCohostAttachment demoNetNoLoc (str "u") none (DirState.present []) =
      ⟨Except.error CacheError.redirectExpected, DirState.present [], 3, []⟩ ∧
    (cacheCohostAttachment demoNetSecond (str "u") none
        (DirState.present [])).heads = 2 ∧
    (cacheCohostAttachment demoNetSecond (str "u") none
        (DirState.present [])).result =
      Except.ok (percentDecode (str "b.png"),
        demoNetSecond.get (str "https://cdn.example/a/b.png")) :=
  ⟨c2_redirect_retry_bound.2.1 demoNetNoLoc (str "u") none
     (DirState.present []) (by decide) rfl rfl rfl,
   (c2_redirect_retry_bound.2.2.1 demoNetSecond (str "u") none
     (DirState.present []) (str "https://cdn.example/a/b.png")
     (str "https://cdn.example/a") (str "b.png")
     (by decide) rfl rfl (by decide)).1,
   (c2_redirect_retry_bound.2.2.1 demoNetSecond (str "u") none
     (DirState.present []) (str "https://cdn.example/a/b.png")
     (str "https://cdn.example/a") (str "b.png")
     (by decide) rfl rfl (by decide)).2⟩

/-! ## C5 -/

/-- Rust `rsplit_once` at a slash is none exactly when the string has no slash. -/
theorem rsplit_eq_none : ∀ l : Str, rsplitOnceSlash l = none ↔ (47 : Nat) ∉ l
  | [] => by simp [rsplitOnceSlash]
  | c :: rest => by
    have ih := rsplit_eq_none rest
    simp only [rsplitOnceSlash, List.mem_cons]
    cases h : rsplitOnceSlash rest with
    | some p =>
      have hin : (47 : Nat) ∈ rest := by
        by_contra hmem
        rw [← ih] at hmem
        rw [hmem] at h
        cases h
      simp [hin]
    | none =>
      have hnotin : (47 : Nat) ∉ rest := ih.mp h
      by_cases hc : c = 47
      · subst hc; simp
      · simp only [hc, if_false]
        constructor
        · intro _ hor
          rcases hor with h47 | h47
          · exact hc h47.symm
          · exact hnotin h47
        · intro _; trivial

/-- Rust `rsplit_once` at a slash splits at the last slash: the input is the part before
it, the slash, then a slash-free part after it. -/
theorem rsplit_spec : ∀ (l pre post : Str),
    rsplitOnceSlash l = some (pre, post) →
    l = pre ++ 47 :: post ∧ (47 : Nat) ∉ post
  | [], pre, post => by simp [rsplitOnceSlash]
  | c :: rest, pre, post => by
    simp only [rsplitOnceSlash]
    cases h : rsplitOnceSlash rest with
    | some p =>
      rcases p with ⟨a, b⟩
      intro hsome
      simp only [Option.some.injEq, Prod.mk.injEq] at hsome
      obtain ⟨ha, hb⟩ := hsome
      obtain ⟨ih1, ih2⟩ := rsplit_spec rest a b h
      subst hb
      constructor
      · rw [← ha, ih1]; rfl
      · exact ih2
    | none =>
      by_cases hc : c = 47
      · rw [if_pos hc]
        intro hsome
        simp only [Option.some.injEq, Prod.mk.injEq] at hsome
        obtain ⟨hpre, hpost⟩ := hsome
        subst hc
        subst hpre
        subst hpost
        exact ⟨rfl, (rsplit_eq_none _).mp h⟩
      · simp [hc]

/-- C5: the stored filename of the platform-resource fetch is the substring
of the `Location` target after its last slash, percent-decoded exactly once;
a target without any slash fails with `malformedRedirectTarget` and stores
nothing. -/
theorem c5_redirect_filename_decoding :
    (∀ net url t (d : DirState) target, probe d = none →
      net.headLoc url 0 = some target → (47 : Nat) ∉ target →
      cacheCohostAttachment net url t d =
        ⟨Except.error CacheError.malformedRedirectTarget, d, 1, []⟩) ∧
    (∀ net url t (d : DirState) target pre enc, probe d = none →
      net.headLoc url 0 = some target →
      rsplitOnceSlash target = some (pre, enc) →
      target = pre ++ 47 :: enc ∧ (47 : Nat) ∉ enc ∧
      (cacheCohostAttachment net url t d).result =
        Except.ok (percentDecode enc,
          net.get (match t with | some f => f target | none => target))) ∧
    percentDecode (str "My%20File.png") = str "My File.png" := by
  refine ⟨?_, ?_, by decide⟩
  · intro net url t d target hp h0 hns
    have ht : rsplitOnceSlash target = none := (rsplit_eq_none target).mpr hns
    unfold cacheCohostAttachment
    rw [hp, rrl_some net url 0 2 target h0]
    simp [ht]
  · intro net url t d target pre enc hp h0 ht
    obtain ⟨hsplit, hfree⟩ := rsplit_spec target pre enc ht
    refine ⟨hsplit, hfree, ?_⟩
    unfold cacheCohostAttachment
    rw [hp, rrl_some net url 0 2 target h0]
    simp [ht]

/-- C5 witness: a slashless redirect target fails; the spec's example target
stores `My File.png`. -/
theorem c5_witness :
    cacheCohostAttachment demoNetNoSlash (str "u") none (DirState.present []) =
      ⟨Except.error CacheError.malformedRedirectTarget,
        DirState.present [], 1, []⟩ ∧
    (cacheCohostAttachment demoNet (str "u") none
        (DirState.present [])).result =
      Except.ok (percentDecode (str "My%20File.png"),
        demoNet.get (str "https://cdn.example/att/My%20File.png")) :=
  ⟨c5_redirect_filename_decoding.1 demoNetNoSlash (str "u") none
     (DirState.present []) (str "no-slash-here") (by decide) rfl (by decide),
   (c5_redirect_filename_decoding.2.1 demoNet (str "u") none
     (DirState.present []) (str "https://cdn.example/att/My%20File.png")
     (str "https://cdn.example/att") (str "My%20File.png")
     (by decide) rfl (by decide)).2.2⟩

/-! ## C7 -/

/-- C7: with a transform supplied the final GET fetches the transform of the
resolved redirect target (for thumbnails, the target with the width query
appended) while the stored filename still comes from the untransformed
target; without a transform the resolved target is fetched unchanged. -/
theorem c7_transform_on_resolved_target :
    (∀ u : Str, thumb u = u ++ str "?width=675") ∧
    (∀ net url (d : DirState) target pre enc, probe d = none →
      net.headLoc url 0 = some target →
      rsplitOnceSlash target = some (pre, enc) →
      (cacheCohostAttachment net url (some thumb) d).getUrls =
        [thumb target] ∧
      (cacheCohostAttachment net url (some thumb) d).result =
        Except.ok (percentDecode enc, net.get (thumb target)) ∧
      (cacheCohostAttachment net url none d).getUrls = [target] ∧
      (cacheCohostAttachment net url none d).result =
        Except.ok (percentDecode enc, net.get target)) ∧
    (∀ net id target pre enc,
      net.headLoc (attachment_id_to_url id) 0 = some target →
      rsplitOnceSlash target = some (pre, enc) →
      (cacheCohostThumb net id DirState.absent).getUrls = [thumb target]) := by
  refine ⟨fun u => rfl, ?_, ?_⟩
  · intro net url d target pre enc hp h0 ht
    unfold cacheCohostAttachment
    rw [hp, rrl_some net url 0 2 target h0]
    simp [ht]
  · intro net id target pre enc h0 ht
    unfold cacheCohostThumb cohostIdCache cacheCohostAttachment
    rw [show ensureDir DirState.absent = DirState.present [] from rfl,
      show probe (DirState.present []) = none from rfl,
      rrl_some net (attachment_id_to_url id) 0 2 target h0]
    simp [ht]

/-- C7 witness: at the demonstration network the thumbnail fetch downloads
the resolved target with the width query and stores the decoded name. -/
theorem c7_witness :
    (cacheCohostAttachment demoNet (str "u") (some thumb)
        (DirState.present [])).getUrls =
      [thumb (str "https://cdn.example/att/My%20File.png")] ∧
    (cacheCohostThumb demoNet demoId DirState.absent).getUrls =
      [thumb (str "https://cdn.example/att/My%20File.png")] :=
  ⟨(c7_transform_on_resolved_target.2.1 demoNet (str "u")
      (DirState.present []) (str "https://cdn.example/att/My%20File.png")
      (str "https://cdn.example/att") (str "My%20File.png")
      (by decide) rfl (by decide)).1,
   c7_transform_on_resolved_target.2.2 demoNet demoId
     (str "https://cdn.example/att/My%20File.png")
     (str "https://cdn.example/att") (str "My%20File.png") rfl (by decide)⟩

/-! ## Probe and idempotence lemmas shared by C1 and C4 -/

/-- A probe hit makes `cache_cohost_attachment` return the entry at once,
with no network activity and no state change. -/
theorem cca_hit (net : Network) (url : Str) (t : Option (Str → Str))
    (d : DirState) (n : Str) (b : Bytes) (h : probe d = some (n, b)) :
    cacheCohostAttachment net url t d = ⟨Except.ok (n, b), d, 0, []⟩ := by
  unfold cacheCohostAttachment
  rw [h]

/-- A probe hit makes `cache_imported_attachment` return the entry at once,
with no network activity and no state change. -/
theorem cia_hit (net : Network) (url : Str) (d : DirState) (n : Str)
    (b : Bytes) (h : probe d = some (n, b)) :
    cacheImportedAttachment net url d = ⟨Except.ok (n, b), d, 0, []⟩ := by
  unfold cacheImportedAttachment
  rw [h]

/-- Rust `create_dir_all` always leaves an existing directory. -/
theorem ensureDir_ne_absent (d : DirState) :
    ensureDir d ≠ DirState.absent := by
  cases d <;> simp [ensureDir]

/-- Rust `create_dir_all` is idempotent. -/
theorem ensureDir_idem (d : DirState) :
    ensureDir (ensureDir d) = ensureDir d := by
  cases d <;> rfl

/-- Rust `create_dir_all` preserves well-formedness. -/
theorem wfDir_ensure {d : DirState} (h : wfDir d) : wfDir (ensureDir d) := by
  cases d with
  | absent => intro e he; cases he
  | present es => exact h

/-- A well-formed existing directory that misses is empty. -/
theorem wf_miss_empty {d : DirState} (hw : wfDir d)
    (hne : d ≠ DirState.absent) (hp : probe d = none) :
    d = DirState.present [] := by
  cases d with
  | absent => exact absurd rfl hne
  | present es =>
    cases es with
    | nil => rfl
    | cons e es2 =>
      have he : e.openable = true := hw e (by simp)
      simp [probe, he] at hp

/-- Writing a file into an empty directory makes the next probe hit it. -/
theorem probe_write_empty (n : Str) (b : Bytes) :
    probe (writeFile (DirState.present []) n b) = some (n, b) := rfl

/-- A probe hit determines the answer of `cached_attachment_url`. -/
theorem cachedAttachmentUrl_of_probe {d : DirState} {n : Str} {b : Bytes}
    (h : probe d = some (n, b)) : cachedAttachmentUrl d = Except.ok n := by
  cases d with
  | absent => simp [probe] at h
  | present es =>
    cases es with
    | nil => simp [probe] at h
    | cons e es2 =>
      cases he : e.openable with
      | false => simp [probe, he] at h
      | true =>
        simp only [probe, he, if_true, Option.some.injEq, Prod.mk.injEq] at h
        simp [cachedAttachmentUrl, h.1]

/-- Inversion of a successful `cache_cohost_attachment`: a probe hit that
left everything untouched, or a miss that wrote exactly the returned file
with one GET. -/
theorem cca_ok_inv (net : Network) (url : Str) (t : Option (Str → Str))
    (d : DirState) (n : Str) (b : Bytes)
    (h : (cacheCohostAttachment net url t d).result = Except.ok (n, b)) :
    (probe d = some (n, b) ∧
      cacheCohostAttachment net url t d = ⟨Except.ok (n, b), d, 0, []⟩) ∨
    (probe d = none ∧ ∃ hds gu,
      cacheCohostAttachment net url t d =
        ⟨Except.ok (n, b), writeFile d n b, hds, [gu]⟩) := by
  cases hp : probe d with
  | some hit =>
    rcases hit with ⟨hn, hb⟩
    have heq := cca_hit net url t d hn hb hp
    rw [heq] at h
    simp only [Except.ok.injEq, Prod.mk.injEq] at h
    obtain ⟨rfl, rfl⟩ := h
    exact Or.inl ⟨rfl, heq⟩
  | none =>
    refine Or.inr ⟨rfl, ?_⟩
    unfold cacheCohostAttachment at h ⊢
    rw [hp] at h ⊢
    rcases hr : resolveRedirectLoop net url 0 2 with ⟨res, hds⟩
    rw [hr] at h
    cases res with
    | error e => simp at h
    | ok target =>
      cases ht : rsplitOnceSlash target with
      | none => simp [ht] at h
      | some p =>
        rcases p with ⟨pre, enc⟩
        simp only [ht] at h ⊢
        simp only [Except.ok.injEq, Prod.mk.injEq] at h
        obtain ⟨rfl, rfl⟩ := h
        exact ⟨hds, _, rfl⟩

/-- Inversion of `cache_imported_attachment`: a probe hit that left
everything untouched, or a miss that wrote exactly the returned file with
one GET. -/
theorem cia_ok_inv (net : Network) (url : Str) (d : DirState) (n : Str)
    (b : Bytes)
    (h : (cacheImportedAttachment net url d).result = Except.ok (n, b)) :
    (probe d = some (n, b) ∧
      cacheImportedAttachment net url d = ⟨Except.ok (n, b), d, 0, []⟩) ∨
    (probe d = none ∧
      cacheImportedAttachment net url d =
        ⟨Except.ok (n, b), writeFile d n b, 0, [url]⟩) := by
  cases hp : probe d with
  | some hit =>
    rcases hit with ⟨hn, hb⟩
    have heq := cia_hit net url d hn hb hp
    rw [heq] at h
    simp only [Except.ok.injEq, Prod.mk.injEq] at h
    obtain ⟨rfl, rfl⟩ := h
    exact Or.inl ⟨rfl, heq⟩
  | none =>
    refine Or.inr ⟨rfl, ?_⟩
    unfold cacheImportedAttachment at h ⊢
    rw [hp] at h ⊢
    simp only [Except.ok.injEq, Prod.mk.injEq] at h
    obtain ⟨rfl, rfl⟩ := h
    rfl

/-- After a successful `cache_cohost_attachment` on a well-formed directory,
the directory probes as a hit on exactly the returned file, it survives
`create_dir_all`, `cached_attachment_url` agrees with the returned name, and
at most one GET was issued. -/
theorem cca_ok_post (net : Network) (u : Str) (t : Option (Str → Str))
    (d0 : DirState) (n : Str) (b : Bytes) (hw : wfDir d0)
    (h : (cacheCohostAttachment net u t (ensureDir d0)).result =
      Except.ok (n, b)) :
    probe (cacheCohostAttachment net u t (ensureDir d0)).dir = some (n, b) ∧
    ensureDir (cacheCohostAttachment net u t (ensureDir d0)).dir =
      (cacheCohostAttachment net u t (ensureDir d0)).dir ∧
    cachedAttachmentUrl (cacheCohostAttachment net u t (ensureDir d0)).dir =
      Except.ok n ∧
    (cacheCohostAttachment net u t (ensureDir d0)).getUrls.length ≤ 1 := by
  rcases cca_ok_inv net u t (ensureDir d0) n b h with
    ⟨hp, heq⟩ | ⟨hp, hds, gu, heq⟩
  · rw [heq]
    exact ⟨hp, ensureDir_idem d0, cachedAttachmentUrl_of_probe hp, by simp⟩
  · have hempty : ensureDir d0 = DirState.present [] :=
      wf_miss_empty (wfDir_ensure hw) (ensureDir_ne_absent d0) hp
    rw [hempty] at heq
    rw [hempty, heq]
    exact ⟨probe_write_empty n b, rfl,
      cachedAttachmentUrl_of_probe (probe_write_empty n b), by simp⟩

/-- The analogue of `cca_ok_post` for `cache_imported_attachment`. -/
theorem cia_ok_post (net : Network) (u : Str) (d0 : DirState) (n : Str)
    (b : Bytes) (hw : wfDir d0)
    (h : (cacheImportedAttachment net u (ensureDir d0)).result =
      Except.ok (n, b)) :
    probe (cacheImportedAttachment net u (ensureDir d0)).dir = some (n, b) ∧
    ensureDir (cacheImportedAttachment net u (ensureDir d0)).dir =
      (cacheImportedAttachment net u (ensureDir d0)).dir ∧
    (cacheImportedAttachment net u (ensureDir d0)).getUrls.length ≤ 1 := by
  rcases cia_ok_inv net u (ensureDir d0) n b h with ⟨hp, heq⟩ | ⟨hp, heq⟩
  · rw [heq]
    exact ⟨hp, ensureDir_idem d0, by simp⟩
  · have hempty : ensureDir d0 = DirState.present [] :=
      wf_miss_empty (wfDir_ensure hw) (ensureDir_ne_absent d0) hp
    rw [hempty] at heq
    rw [hempty, heq]
    exact ⟨probe_write_empty n b, rfl, by simp⟩

/-- Idempotence of the shared id-keyed entry-point shape: after a success,
re-running the operation on the resulting directory state is a pure cache
hit — same result, unchanged directory, no HEADs, no GETs — and the first
run issued at most one GET. -/
theorem cohostIdCache_idem (net : Network) (t : Option (Str → Str))
    (id : Str) (d : DirState) (hw : wfDir d) (n : Str)
    (hok : (cohostIdCache net t id d).result = Except.ok n) :
    cohostIdCache net t id (cohostIdCache net t id d).dir =
      ⟨Except.ok n, (cohostIdCache net t id d).dir, 0, []⟩ ∧
    (cohostIdCache net t id d).getUrls.length ≤ 1 := by
  have hinner : ∃ pr, (cacheCohostAttachment net (attachment_id_to_url id) t
      (ensureDir d)).result = Except.ok pr := by
    simp only [cohostIdCache] at hok
    cases hres : (cacheCohostAttachment net (attachment_id_to_url id) t
        (ensureDir d)).result with
    | error e => rw [hres] at hok; simp at hok
    | ok pr => exact ⟨pr, rfl⟩
  obtain ⟨⟨n2, b2⟩, hres⟩ := hinner
  obtain ⟨hprobe, hens, hurl, hlen⟩ :=
    cca_ok_post net (attachment_id_to_url id) t d n2 b2 hw hres
  have hr1 : cohostIdCache net t id d =
      ⟨cachedAttachmentUrl (cacheCohostAttachment net
          (attachment_id_to_url id) t (ensureDir d)).dir,
       (cacheCohostAttachment net (attachment_id_to_url id) t
          (ensureDir d)).dir,
       (cacheCohostAttachment net (attachment_id_to_url id) t
          (ensureDir d)).heads,
       (cacheCohostAttachment net (attachment_id_to_url id) t
          (ensureDir d)).getUrls⟩ := by
    simp only [cohostIdCache]
    rw [hres]
  rw [hr1] at hok
  have hok2 : cachedAttachmentUrl (cacheCohostAttachment net
      (attachment_id_to_url id) t (ensureDir d)).dir = Except.ok n := hok
  constructor
  · rw [hr1]
    simp only [cohostIdCache]
    rw [hens, cca_hit net (attachment_id_to_url id) t _ n2 b2 hprobe]
    simp [hok2]
  · rw [hr1]
    exact hlen

/-! ## C4 -/

/-- C4: the probe misses exactly on an unlistable directory, an empty one, or
one whose first entry cannot be opened; in particular a pre-created empty
directory for a known id is a miss that triggers a fetch and is not reported
as `emptyCacheDirectory`. -/
theorem c4_probe_miss_characterization :
    (∀ d : DirState, probe d = none ↔
      (d = DirState.absent ∨ d = DirState.present [] ∨
       ∃ e es, d = DirState.present (e :: es) ∧ e.openable = false)) ∧
    (∀ net url, (cacheImportedAttachment net url
      (DirState.present [])).getUrls = [url]) ∧
    (∀ net id target pre enc,
      net.headLoc (attachment_id_to_url id) 0 = some target →
      rsplitOnceSlash target = some (pre, enc) →
      (cacheCohostResourceAttachment net id
        (DirState.present [])).getUrls ≠ [] ∧
      (cacheCohostResourceAttachment net id (DirState.present [])).result ≠
        Except.error CacheError.emptyCacheDirectory ∧
      (cacheCohostResourceAttachment net id (DirState.present [])).result =
        Except.ok (percentDecode enc)) := by
  refine ⟨?_, fun net url => rfl, ?_⟩
  · intro d
    cases d with
    | absent => simp [probe]
    | present es =>
      cases es with
      | nil => simp [probe]
      | cons e es2 =>
        cases he : e.openable with
        | true => simp [probe, he]
        | false => simp [probe, he]
  · intro net id target pre enc h0 ht
    have hval : cacheCohostResourceAttachment net id (DirState.present []) =
        ⟨Except.ok (percentDecode enc),
         DirState.present [⟨percentDecode enc, true, net.get target⟩],
         1, [target]⟩ := by
      unfold cacheCohostResourceAttachment cohostIdCache cacheCohostAttachment
      rw [show ensureDir (DirState.present []) = DirState.present [] from rfl,
        show probe (DirState.present []) = none from rfl,
        rrl_some net (attachment_id_to_url id) 0 2 target h0]
      simp [ht, writeFile, replaceOrAppend, cachedAttachmentUrl]
    rw [hval]
    exact ⟨by simp, by simp, rfl⟩

/-- C4 witness: the characterization at an empty directory, and the empty
directory triggering a successful fetch at the demonstration network. -/
theorem c4_witness :
    probe (DirState.present []) = none ∧
    (cacheCohostResourceAttachment demoNet demoId
        (DirState.present [])).getUrls ≠ [] ∧
    (cacheCohostResourceAttachment demoNet demoId
        (DirState.present [])).result =
      Except.ok (percentDecode (str "My%20File.png")) :=
  ⟨(c4_probe_miss_characterization.1 (DirState.present [])).mpr
     (Or.inr (Or.inl rfl)),
   (c4_probe_miss_characterization.2.2 demoNet demoId
     (str "https://cdn.example/att/My%20File.png")
     (str "https://cdn.example/att") (str "My%20File.png")
     rfl (by decide)).1,
   (c4_probe_miss_characterization.2.2 demoNet demoId
     (str "https://cdn.example/att/My%20File.png")
     (str "https://cdn.example/att") (str "My%20File.png")
     rfl (by decide)).2.2⟩

/-! ## C1 -/

/-- C1: for each cache operation, after a successful call on a directory the
subsystem itself manages (well-formed: any pre-existing entry is readable), a
second call with no intervening change is a pure cache hit: it issues no HEAD
and no GET, returns the same path and the same bytes, and leaves the
directory unchanged; the first call issued at most one GET. -/
theorem c1_cache_idempotence :
    (∀ net (url postBasename : Str) (d : DirState), wfDir d →
      ∀ n b,
      (cacheImported net url postBasename d).2.result = Except.ok (n, b) →
      cacheImported net url postBasename
          (cacheImported net url postBasename d).2.dir =
        ((cacheImported net url postBasename d).1,
         ⟨Except.ok (n, b), (cacheImported net url postBasename d).2.dir,
          0, []⟩) ∧
      (cacheImported net url postBasename d).2.getUrls.length ≤ 1) ∧
    (∀ net (id : Str) (d : DirState), wfDir d →
      ∀ n, (cacheCohostResourceAttachment net id d).result = Except.ok n →
      cacheCohostResourceAttachment net id
          (cacheCohostResourceAttachment net id d).dir =
        ⟨Except.ok n, (cacheCohostResourceAttachment net id d).dir, 0, []⟩ ∧
      (cacheCohostResourceAttachment net id d).getUrls.length ≤ 1) ∧
    (∀ net (id : Str) (d : DirState), wfDir d →
      ∀ n, (cacheCohostThumb net id d).result = Except.ok n →
      cacheCohostThumb net id (cacheCohostThumb net id d).dir =
        ⟨Except.ok n, (cacheCohostThumb net id d).dir, 0, []⟩ ∧
      (cacheCohostThumb net id d).getUrls.length ≤ 1) ∧
    (∀ net (url : Str) (c : FileCell),
      cacheOtherCohostResource net url
          (cacheOtherCohostResource net url c).1 =
        ((cacheOtherCohostResource net url c).1, []) ∧
      (cacheOtherCohostResource net url c).2.length ≤ 1) := by
  refine ⟨?_, ?_, ?_, ?_⟩
  · intro net url pb d hw n b hok
    have hok2 : (cacheImportedAttachment net url (ensureDir d)).result =
        Except.ok (n, b) := hok
    rcases cia_ok_inv net url (ensureDir d) n b hok2 with ⟨hp, heq⟩ | ⟨hp, heq⟩
    · simp [cacheImported, heq, ensureDir_idem]
    · have hempty : ensureDir d = DirState.present [] :=
        wf_miss_empty (wfDir_ensure hw) (ensureDir_ne_absent d) hp
      rw [hempty] at heq
      have hens : ensureDir (writeFile (DirState.present []) n b) =
          writeFile (DirState.present []) n b := rfl
      have h2 := cia_hit net url (writeFile (DirState.present []) n b) n b
        (probe_write_empty n b)
      simp [cacheImported, hempty, heq, hens, h2]
  · intro net id d hw n hok
    exact cohostIdCache_idem net none id d hw n hok
  · intro net id d hw n hok
    exact cohostIdCache_idem net (some thumb) id d hw n hok
  · intro net url c
    cases c with
    | absent => exact ⟨rfl, by simp [cacheOtherCohostResource]⟩
    | present op content =>
      cases op with
      | true => exact ⟨rfl, by simp [cacheOtherCohostResource]⟩
      | false => exact ⟨rfl, by simp [cacheOtherCohostResource]⟩

set_option maxRecDepth 10000 in
/-- C1 witness: the attachment-id operation at the demonstration network,
starting from a fresh (absent) cache directory. -/
theorem c1_witness :
    cacheCohostResourceAttachment demoNet demoId
        (cacheCohostResourceAttachment demoNet demoId DirState.absent).dir =
      ⟨Except.ok (str "My File.png"),
       (cacheCohostResourceAttachment demoNet demoId DirState.absent).dir,
       0, []⟩ ∧
    (cacheCohostResourceAttachment demoNet demoId
        DirState.absent).getUrls.length ≤ 1 :=
  c1_cache_idempotence.2.1 demoNet demoId DirState.absent (by trivial)
    (str "My File.png") (by decide)

/-! ## C8 -/

/-- C8 counterexample: for the attachment id equal to the byte string
"thumbs", the thumbnail cache directory lies strictly inside the full-size
cache directory's subtree, and a thumbnail fetch for that id mutates state at
a path below the full-size cache directory. -/
theorem c8_counterexample :
    attachmentDirPath (str "thumbs") ++ [str "thumbs"] =
      thumbDirPath (str "thumbs") ∧
    attachmentDirPath (str "thumbs") <+: thumbDirPath (str "thumbs") ∧
    (cacheCohostThumbFS demoNet (str "thumbs") emptyFS).2
        (thumbDirPath (str "thumbs")) ≠
      emptyFS (thumbDirPath (str "thumbs")) := by
  refine ⟨rfl, ⟨[str "thumbs"], rfl⟩, by decide⟩

/-- C8 (amended): for every attachment id other than the byte string
"thumbs" — in particular every 36-character id — the full-size and thumbnail
cache subtrees share no path, and each of the two operations leaves the
other's cache directory untouched. -/
theorem c8_thumbnail_isolation (id : Str) (hid : id ≠ str "thumbs") :
    (∀ p : DirPath, attachmentDirPath id <+: p → thumbDirPath id <+: p →
      False) ∧
    (∀ net fs,
      (cacheCohostThumbFS net id fs).2 (attachmentDirPath id) =
        fs (attachmentDirPath id) ∧
      (cacheCohostResourceAttachmentFS net id fs).2 (thumbDirPath id) =
        fs (thumbDirPath id)) := by
  have hne : attachmentDirPath id ≠ thumbDirPath id := by
    simp [attachmentDirPath, thumbDirPath]
  have hne2 : thumbDirPath id ≠ attachmentDirPath id := fun h => hne h.symm
  constructor
  · intro p h1 h2
    obtain ⟨t1, e1⟩ := h1
    obtain ⟨t2, e2⟩ := h2
    have e3 : id :: t1 = str "thumbs" :: id :: t2 := by
      simpa [attachmentDirPath, thumbDirPath] using e1.trans e2.symm
    injection e3 with h4 h5
    exact hid h4
  · intro net fs
    constructor
    · simp only [cacheCohostThumbFS]
      rw [if_neg hne]
    · simp only [cacheCohostResourceAttachmentFS]
      rw [if_neg hne2]

/-- C8 witness: isolation of the two operations at the repository test's id
over the empty tree. -/
theorem c8_witness :
    (cacheCohostThumbFS demoNet demoId emptyFS).2 (attachmentDirPath demoId) =
      emptyFS (attachmentDirPath demoId) ∧
    (cacheCohostResourceAttachmentFS demoNet demoId emptyFS).2
        (thumbDirPath demoId) = emptyFS (thumbDirPath demoId) :=
  (c8_thumbnail_isolation demoId (by decide)).2 demoNet emptyFS

/-! ## C9 -/

/-- C9 counterexample: a store with no input filename fails with
`noFilename`, yet the filesystem is not left unchanged — the freshly
generated cache directory has already been created before the check. -/
theorem c9_counterexample :
    (store (str "u") [] [1, 2] ⟨[], []⟩).1 =
      Except.error StoreError.noFilename ∧
    (store (str "u") [] [1, 2] ⟨[], []⟩).2 ≠ (⟨[], []⟩ : StoreFS) := by
  decide

/-- C9 (amended): `store` — whose model takes no network oracle, as the code
performs no network I/O — copies the input's bytes under its base name into
the fresh cache directory on success, and fails with `noFilename` when the
input path has no base name or `unsupportedFilename` when the base name is
not UTF-8-representable; in the failure cases no file is written, but the
freshly generated cache directory has already been created. -/
theorem c9_store_contract (uuid : Str) (comps : List OsStr) (bytes : Bytes)
    (fs : StoreFS) :
    (fileNameOf comps = none →
      store uuid comps bytes fs =
        (Except.error StoreError.noFilename, addDir fs [uuid])) ∧
    (∀ f, fileNameOf comps = some f → osToStr f = none →
      store uuid comps bytes fs =
        (Except.error StoreError.unsupportedFilename, addDir fs [uuid])) ∧
    (∀ f name, fileNameOf comps = some f → osToStr f = some name →
      store uuid comps bytes fs =
        (Except.ok [uuid, name],
         putFile (addDir fs [uuid]) [uuid, name] bytes)) ∧
    (addDir fs [uuid]).files = fs.files := by
  refine ⟨?_, ?_, ?_, rfl⟩
  · intro h
    unfold store
    rw [h]
  · intro f h1 h2
    unfold store
    rw [h1]
    simp [h2]
  · intro f name h1 h2
    unfold store
    rw [h1]
    simp [h2]

/-- C9 witness: an unrepresentable base name fails without writing a file; a
representable one stores the bytes under the base name. -/
theorem c9_witness :
    store (str "u") [OsStr.invalid [255]] [1] ⟨[], []⟩ =
      (Except.error StoreError.unsupportedFilename,
       addDir (⟨[], []⟩ : StoreFS) [str "u"]) ∧
    store (str "u") [OsStr.valid (str "a.png")] [1] ⟨[], []⟩ =
      (Except.ok [str "u", str "a.png"],
       putFile (addDir (⟨[], []⟩ : StoreFS) [str "u"])
         [str "u", str "a.png"] [1]) :=
  ⟨(c9_store_contract (str "u") [OsStr.invalid [255]] [1] ⟨[], []⟩).2.1
     (OsStr.invalid [255]) (by decide) rfl,
   (c9_store_contract (str "u") [OsStr.valid (str "a.png")] [1] ⟨[], []⟩).2.2.1
     (OsStr.valid (str "a.png")) (str "a.png") (by decide) rfl⟩
